import Mathlib

/-!
Shallow embedding of the orchestration layer in
src/packages/perspective/src/js/perspective.js, together with theorems
settling the specification claims about type inference, view configuration,
table lifecycle, update bookkeeping and the Host dispatch protocol.
-/

namespace Perspective

/-- Logical column types: the subset of engine t_dtype values used by the
js layer (perspective.js lines 44-69). -/
inductive DType
  | DTYPE_INT32
  | DTYPE_FLOAT64
  | DTYPE_BOOL
  | DTYPE_TIME
  | DTYPE_STR
deriving DecidableEq, Repr

/-- A javascript value as seen by infer_type.  Numbers are modelled as
rationals, which is exact for every float the claims quantify over; the two
external string predicates (Number(x) parses, is_valid_date from the
date_parser module, which is not part of the sources) are carried on the
value itself as precomputed booleans. -/
inductive JSVal
  | null
  | num (q : ℚ)
  | boolVal (b : Bool)
  | dateVal
  | str (s : String) (parsesAsNumber : Bool) (validDate : Bool)
deriving DecidableEq, Repr

/-- Embedding of infer_type (perspective.js lines 44-69).  The branches are
in source order: null yields no signal; a number that is integral
(x % 1 === 0, i.e. denominator 1), is < 10000 and is nonzero is INT32; any
other number is FLOAT64; booleans are BOOL; Date instances are TIME; a
string parsing to a number and non-empty is FLOAT64; a valid date string is
TIME; "true"/"false" (case-insensitive) is BOOL; any other string is STR. -/
def infer_type : JSVal → Option DType
  | .null => none
  | .num q =>
      if q.den = 1 ∧ q < 10000 ∧ q ≠ 0 then some .DTYPE_INT32
      else some .DTYPE_FLOAT64
  | .boolVal _ => some .DTYPE_BOOL
  | .dateVal => some .DTYPE_TIME
  | .str s parsesNum validDate =>
      if parsesNum ∧ s ≠ "" then some .DTYPE_FLOAT64
      else if validDate then some .DTYPE_TIME
      else if s.toLower = "true" ∨ s.toLower = "false" then some .DTYPE_BOOL
      else some .DTYPE_STR

/-- A row object of a row-oriented input: an association list from column
name to value.  A key being present models hasOwnProperty. -/
abbrev Row := List (String × JSVal)

/-- Embedding of the column type inference loop of parse_data
(perspective.js lines 177-187): starting with no inferred type, scan rows
while no type has been found and fewer than 100 rows were visited; a row
without the key contributes nothing, a value whose inference is null keeps
scanning. -/
def infer_col_loop (name : String) : List Row → Nat → Option DType
  | [], _ => none
  | _, 0 => none
  | r :: rest, Nat.succ fuel =>
      match (List.lookup name r).bind infer_type with
      | some t => some t
      | none => infer_col_loop name rest fuel

/-- Embedding of the per-column inference of parse_data (lines 179-187,
including line 186): the loop result, defaulting to DTYPE_STR when the
sample yields no type. -/
def infer_col (name : String) (data : List Row) : DType :=
  (infer_col_loop name data 100).getD DType.DTYPE_STR

/-- What the loop computes on one row: the inferred type of the cell, when
the key is present and the value has an inference signal. -/
def cell_infer (name : String) (r : Row) : Option DType :=
  (List.lookup name r).bind infer_type

theorem infer_col_loop_eq_findSome (name : String) :
    ∀ (data : List Row) (fuel : Nat),
      infer_col_loop name data fuel = (data.take fuel).findSome? (cell_infer name) := by
  intro data
  induction data with
  | nil => intro fuel; cases fuel <;> simp [infer_col_loop]
  | cons r rest ih =>
      intro fuel
      cases fuel with
      | zero => simp [infer_col_loop]
      | succ fuel =>
          simp only [infer_col_loop, List.take_succ_cons, List.findSome?, cell_infer]
          cases h : (List.lookup name r).bind infer_type with
          | some t => rfl
          | none => exact ih fuel

/-- C4: for a column without a preloaded type, inference examines at most
the first 100 values (fewer when the column is shorter), stops at the first
value whose inference yields a non-null type, and assigns DTYPE_STR when no
sampled value yields a type.  The second conjunct is the full
characterization: the result is the first non-null inference among the
first 100 rows, defaulting to DTYPE_STR. -/
theorem C4_infer_col_sampling (name : String) (data : List Row) :
    infer_col name data = infer_col name (data.take 100)
  ∧ infer_col name data = ((data.take 100).findSome? (cell_infer name)).getD DType.DTYPE_STR := by
  constructor
  · simp [infer_col, infer_col_loop_eq_findSome, List.take_take]
  · simp [infer_col, infer_col_loop_eq_findSome]

/-- C3 counterexample: the column x of the row-oriented input
[x: 1, x: 2] contains only nonzero integers of magnitude below 10000 and is
inferred as integer, but introducing the float 2.5 as the second value
([x: 1, x: 2.5]) leaves the inferred type integer, not float: inference
stops at the first value, so the claim that one float anywhere switches the
whole column to float is false. -/
theorem C3_counterexample :
    infer_col "x" [[("x", JSVal.num 1)], [("x", JSVal.num 2)]] = DType.DTYPE_INT32
  ∧ infer_col "x" [[("x", JSVal.num 1)], [("x", JSVal.num (5 / 2))]] = DType.DTYPE_INT32
  ∧ DType.DTYPE_INT32 ≠ DType.DTYPE_FLOAT64 := by
  refine ⟨?_, ?_, by decide⟩ <;> rfl

theorem infer_col_loop_skip_none (name : String) :
    ∀ (pre rest : List Row) (fuel : Nat),
      (∀ p ∈ pre, cell_infer name p = none) → pre.length < fuel →
      infer_col_loop name (pre ++ rest) fuel =
        infer_col_loop name rest (fuel - pre.length) := by
  intro pre
  induction pre with
  | nil => intro rest fuel _ _; simp
  | cons p pre ih =>
      intro rest fuel hnone hlen
      cases fuel with
      | zero => omega
      | succ f =>
          have hp : (List.lookup name p).bind infer_type = none := by
            simpa [cell_infer] using hnone p (List.mem_cons_self p pre)
          have step : infer_col_loop name (p :: (pre ++ rest)) (Nat.succ f)
              = infer_col_loop name (pre ++ rest) f := by
            simp [infer_col_loop, hp]
          rw [List.cons_append, step,
            ih rest f (fun x hx => hnone x (List.mem_cons_of_mem _ hx))
              (by simp at hlen; omega)]
          congr 1
          simp

/-- C3 (amended): a column whose values are all nonzero integral numbers of
magnitude below 10000 is inferred as integer; and for every column, when
the first value the sampler inspects (the first cell among at most 100
rows whose key is present and whose inference is non-null) is a number,
the whole column is integer whenever that number is a nonzero integral of
magnitude below 10000 — no matter what values, floats included, follow it
— and is float whenever that number is non-integral: one float value
changes the column type exactly when it is the first value the sampler
inspects. -/
theorem C3_integer_column_inference (name : String) (data : List Row) :
    (data ≠ [] →
      (∀ r ∈ data, ∃ q : ℚ,
          List.lookup name r = some (JSVal.num q) ∧ q.den = 1 ∧ q ≠ 0 ∧ |q| < 10000) →
      infer_col name data = DType.DTYPE_INT32)
  ∧ (∀ (pre post : List Row) (r : Row) (q : ℚ),
      data = pre ++ r :: post →
      (∀ p ∈ pre, cell_infer name p = none) →
      pre.length < 100 →
      List.lookup name r = some (JSVal.num q) →
      (q.den = 1 ∧ q ≠ 0 ∧ |q| < 10000 → infer_col name data = DType.DTYPE_INT32)
    ∧ (q.den ≠ 1 → infer_col name data = DType.DTYPE_FLOAT64)) := by
  constructor
  · intro hne hall
    match data with
    | [] => exact absurd rfl hne
    | r :: rest =>
        obtain ⟨q, hq, hden, hz, habs⟩ := hall r (List.mem_cons_self r rest)
        have hlt : q < 10000 := (abs_lt.mp habs).2
        simp [infer_col, infer_col_loop, hq, infer_type, hden, hlt, hz]
  · intro pre post r q hdata hpre hlen hq
    subst hdata
    obtain ⟨k, hk⟩ : ∃ k, 100 - pre.length = Nat.succ k := ⟨99 - pre.length, by omega⟩
    constructor
    · rintro ⟨hden, hz, habs⟩
      have hlt : q < 10000 := (abs_lt.mp habs).2
      have hcell : (List.lookup name r).bind infer_type = some DType.DTYPE_INT32 := by
        simp [hq, infer_type, hden, hlt, hz]
      rw [infer_col, infer_col_loop_skip_none name pre (r :: post) 100 hpre hlen, hk]
      simp [infer_col_loop, hcell]
    · intro hden
      have hcell : (List.lookup name r).bind infer_type = some DType.DTYPE_FLOAT64 := by
        simp [hq, infer_type, hden]
      rw [infer_col, infer_col_loop_skip_none name pre (r :: post) 100 hpre hlen, hk]
      simp [infer_col_loop, hcell]

/-- C3 witness: the amended theorem applied at the all-integer column
[x: 3], at the column [x: 3, x: 2.5] whose float sits after the first
sampled value (the column stays integer), and at the column
[x: 2.5, x: 3] whose first sampled value is the float (the column becomes
float). -/
theorem C3_integer_column_inference_witness :
    infer_col "x" [[("x", JSVal.num 3)]] = DType.DTYPE_INT32
  ∧ infer_col "x" [[("x", JSVal.num 3)], [("x", JSVal.num (5 / 2))]] = DType.DTYPE_INT32
  ∧ infer_col "x" [[("x", JSVal.num (5 / 2))], [("x", JSVal.num 3)]] = DType.DTYPE_FLOAT64 := by
  refine ⟨?_, ?_, ?_⟩
  · refine (C3_integer_column_inference "x" [[("x", JSVal.num 3)]]).1 (by decide) ?_
    intro r hr
    simp only [List.mem_singleton] at hr
    subst hr
    exact ⟨3, by norm_num [List.lookup]⟩
  · exact ((C3_integer_column_inference "x"
        [[("x", JSVal.num 3)], [("x", JSVal.num (5 / 2))]]).2
      [] [[("x", JSVal.num (5 / 2))]] [("x", JSVal.num 3)] 3 rfl
      (fun p hp => absurd hp (List.not_mem_nil p)) (by decide)
      (by norm_num [List.lookup])).1 (by norm_num)
  · exact ((C3_integer_column_inference "x"
        [[("x", JSVal.num (5 / 2))], [("x", JSVal.num 3)]]).2
      [] [[("x", JSVal.num 3)]] [("x", JSVal.num (5 / 2))] (5 / 2) rfl
      (fun p hp => absurd hp (List.not_mem_nil p)) (by decide)
      (by norm_num [List.lookup])).2 (by norm_num)

/-- The view configuration fields relevant to pivot side derivation, as
supplied by the caller of table.prototype.view; none models a field left
undefined (defaulted to the empty list at lines 1196-1197). -/
structure ViewConfigIn where
  row_pivot : Option (List String)
  column_pivot : Option (List String)
deriving DecidableEq, Repr

/-- The pivot state derived by table.prototype.view before context
construction. -/
structure DerivedPivots where
  row_pivot : List String
  column_pivot : List String
  column_only : Bool
  nsides : Nat
deriving DecidableEq, Repr

/-- Embedding of the side computation of table.prototype.view (lines
1275-1330): sides stays 0 unless a pivot list is non-empty, and is 2
exactly when column_pivot is non-empty, else 1. -/
def view_sides_of (rp cp : List String) : Nat :=
  if 0 < rp.length ∨ 0 < cp.length then
    if 0 < cp.length then 2 else 1
  else 0

/-- Embedding of the defaulting and column-only forcing of
table.prototype.view (lines 1196-1203) followed by the side computation:
missing pivot lists default to []; when row_pivot is empty and column_pivot
is not, row_pivot is forced to the sentinel ["psp_okey"] and column_only is
set. -/
def derive_pivots (c : ViewConfigIn) : DerivedPivots :=
  let rp0 := c.row_pivot.getD []
  let cp := c.column_pivot.getD []
  let forced := rp0.length = 0 ∧ 0 < cp.length
  let rp := if forced then ["psp_okey"] else rp0
  { row_pivot := rp, column_pivot := cp, column_only := decide forced,
    nsides := view_sides_of rp cp }

/-- A view object as built by the view constructor (lines 438-447): nsides
is stored at construction and sides() returns it unchanged (lines
479-481). -/
structure ViewObj where
  nsides : Nat
  config : DerivedPivots
  vname : String
deriving DecidableEq, Repr

/-- Embedding of the construction new view(pool, context, sides, ...) at
line 1332, restricted to the pivot bookkeeping. -/
def view_make (c : ViewConfigIn) (vname : String) : ViewObj :=
  let d := derive_pivots c
  { nsides := d.nsides, config := d, vname := vname }

/-- Embedding of view.prototype.sides (lines 479-481). -/
def ViewObj.sides (v : ViewObj) : Nat := v.nsides

/-- C1: sides() returns 2 when column_pivot is non-empty, 1 when only
row_pivot is non-empty, 0 when neither is; and when row_pivot is empty but
column_pivot is non-empty, row_pivot is forced to the sentinel psp_okey key
and the view is marked column-only. -/
theorem C1_view_sides (c : ViewConfigIn) (vname : String) :
    ((view_make c vname).sides =
        if c.column_pivot.getD [] ≠ [] then 2
        else if c.row_pivot.getD [] ≠ [] then 1 else 0)
  ∧ (c.row_pivot.getD [] = [] ∧ c.column_pivot.getD [] ≠ [] →
      (derive_pivots c).row_pivot = ["psp_okey"] ∧ (derive_pivots c).column_only = true) := by
  constructor
  · by_cases hcp : c.column_pivot.getD [] = []
    · by_cases hrp : c.row_pivot.getD [] = []
      · simp [view_make, ViewObj.sides, derive_pivots, view_sides_of, hcp, hrp]
      · have hlen : 0 < (c.row_pivot.getD []).length := List.length_pos.mpr hrp
        simp [view_make, ViewObj.sides, derive_pivots, view_sides_of, hcp, hrp,
          List.length_eq_zero, Nat.pos_iff_ne_zero]
    · have hlen : 0 < (c.column_pivot.getD []).length := List.length_pos.mpr hcp
      by_cases hrp : c.row_pivot.getD [] = []
      · simp [view_make, ViewObj.sides, derive_pivots, view_sides_of, hcp, hrp, hlen]
      · simp [view_make, ViewObj.sides, derive_pivots, view_sides_of, hcp, hrp, hlen,
          List.length_eq_zero]
  · rintro ⟨hrp, hcp⟩
    have hlen : 0 < (c.column_pivot.getD []).length := List.length_pos.mpr hcp
    simp [derive_pivots, hrp, hlen]

/-- C1 witness: the theorem applied at a column-only configuration, a
row-only configuration and an empty configuration. -/
theorem C1_view_sides_witness :
    (view_make ⟨none, some ["a"]⟩ "v").sides = 2
  ∧ (derive_pivots ⟨none, some ["a"]⟩).row_pivot = ["psp_okey"]
  ∧ (derive_pivots ⟨none, some ["a"]⟩).column_only = true
  ∧ (view_make ⟨some ["r"], none⟩ "w").sides = 1
  ∧ (view_make ⟨none, none⟩ "u").sides = 0 := by
  have h2 := C1_view_sides ⟨none, some ["a"]⟩ "v"
  have h1 := C1_view_sides ⟨some ["r"], none⟩ "w"
  have h0 := C1_view_sides ⟨none, none⟩ "u"
  have hforce := h2.2 (by constructor <;> decide)
  refine ⟨?_, hforce.1, hforce.2, ?_, ?_⟩
  · rw [h2.1]; decide
  · rw [h1.1]; decide
  · rw [h0.1]; decide

/-- A sort entry as passed to the engine: a column index and an order
index (both integers in js; the index can be -1 when the configuration
names an unknown column). -/
abbrev SortEntry := Int × Int

/-- Embedding of the group count of the two-sided sort remapping (line
1296): unity_get_column_count() / aggregates.length.  The js division is
on floats; under the divisibility hypothesis of C2 it is exact, so natural
division is faithful. -/
def sort_groups (unityColumnCount aggCount : Nat) : Nat :=
  unityColumnCount / aggCount

/-- Embedding of the two-sided sort replication loop (lines 1297-1303):
for each z below groups and each entry s of sort, push
[s[0] + z * aggregates.length, s[1]] onto new_sort. -/
def replicate_sort (sort : List SortEntry) (groups aggCount : Nat) : List SortEntry :=
  (List.range groups).foldl
    (fun acc (z : Nat) =>
      acc ++ sort.map (fun s => (s.1 + (z : Int) * (aggCount : Int), s.2))) []

theorem foldl_append_eq_flatMap {α β : Type} (f : β → List α) :
    ∀ (l : List β) (init : List α),
      l.foldl (fun acc z => acc ++ f z) init = init ++ l.flatMap f := by
  intro l
  induction l with
  | nil => intro init; simp
  | cons x xs ih => intro init; simp [List.foldl_cons, ih, List.append_assoc]

theorem replicate_sort_eq_flatMap (sort : List SortEntry) (groups aggCount : Nat) :
    replicate_sort sort groups aggCount =
      (List.range groups).flatMap
        (fun z => sort.map (fun s => (s.1 + (z : Int) * (aggCount : Int), s.2))) := by
  have h := foldl_append_eq_flatMap
    (fun z : Nat => sort.map (fun s => (s.1 + (z : Int) * (aggCount : Int), s.2)))
    (List.range groups) []
  rw [List.nil_append] at h
  unfold replicate_sort
  exact h

/-- C2: for a two-sided view with aggregate count A and unity column count
G * A, the group count is G and every supplied sort entry (i, order) is
replicated into the G entries (i + k * A, order) for k below G: each such
entry occurs in the replicated sort, the replicated sort has exactly
G * sort.length entries, and every replicated entry arises this way. -/
theorem C2_sort_replication (sort : List SortEntry) (A G unityCount : Nat)
    (hA : 0 < A) (hU : unityCount = G * A) :
    sort_groups unityCount A = G
  ∧ (∀ s ∈ sort, ∀ k < G,
      ((s.1 + (k : Int) * (A : Int), s.2) : SortEntry) ∈
        replicate_sort sort (sort_groups unityCount A) A)
  ∧ (replicate_sort sort (sort_groups unityCount A) A).length = G * sort.length
  ∧ (∀ e ∈ replicate_sort sort (sort_groups unityCount A) A,
      ∃ s ∈ sort, ∃ k < G, e = (s.1 + (k : Int) * (A : Int), s.2)) := by
  have hg : sort_groups unityCount A = G := by
    simp [sort_groups, hU, Nat.mul_div_cancel _ hA]
  refine ⟨hg, ?_, ?_, ?_⟩
  · intro s hs k hk
    rw [hg, replicate_sort_eq_flatMap]
    refine List.mem_flatMap.mpr ⟨k, List.mem_range.mpr hk, ?_⟩
    exact List.mem_map.mpr ⟨s, hs, rfl⟩
  · rw [hg, replicate_sort_eq_flatMap]
    rw [List.length_flatMap]
    simp only [Function.comp_def, List.length_map]
    rw [List.map_const', List.sum_replicate, List.length_range, smul_eq_mul]
  · intro e he
    rw [hg, replicate_sort_eq_flatMap] at he
    obtain ⟨k, hk, hmem⟩ := List.mem_flatMap.mp he
    obtain ⟨s, hs, hes⟩ := List.mem_map.mp hmem
    exact ⟨s, hs, k, List.mem_range.mp hk, hes.symm⟩

/-- C2 witness: the theorem applied with one sort entry, A = 2 aggregates
and unity column count 6, hence G = 3 groups. -/
theorem C2_sort_replication_witness :
    sort_groups 6 2 = 3
  ∧ (replicate_sort [((0 : Int), (1 : Int))] (sort_groups 6 2) 2).length = 3 * 1 := by
  have h := C2_sort_replication [((0 : Int), (1 : Int))] 2 3 6 (by decide) (by decide)
  exact ⟨h.1, h.2.2.1⟩

/-- Embedding of the limit_index advance of table.prototype.update (lines
1364-1367): limit_index += row_count, then limit_index %= limit when
this.limit is truthy (set and nonzero); none models the undefined field. -/
def update_limit_index (limit : Option Nat) (limit_index row_count : Nat) : Nat :=
  let li := limit_index + row_count
  match limit with
  | some l => if l ≠ 0 then li % l else li
  | none => li

/-- Which engine call of table.prototype.update throws, if any: make_table
at line 1362, or a later call (table_add_computed_column or fill, lines
1370-1372) after the scratch table was created.  ok means every engine call
succeeds. -/
inductive UpdOutcome
  | ok
  | makeTableFails
  | fillFails
deriving DecidableEq, Repr

/-- The table state and resource bookkeeping after one update call. -/
structure UpdateResult where
  limit_index : Nat
  engineFilled : Bool
  errorLogged : Bool
  tblCreated : Bool
  tblAlive : Bool
  schemaAlive : Bool
  typesAlive : Bool
deriving DecidableEq, Repr

/-- Embedding of the try/catch/finally of table.prototype.update (lines
1360-1382), after parse_data succeeded.  The schema and types handles are
held on entry; inside try, make_table may throw (leaving everything before
it untouched); on its success limit_index is advanced, then
computed-column application or fill may throw; on full success the
engineFilled flag (this.initialized in the source) is set.  The catch
logs the error and swallows it; the finally releases the scratch table
when it was created, and always releases the schema and types handles. -/
def table_update (limit : Option Nat) (limit_index : Nat) (engineFilled : Bool)
    (row_count : Nat) (outcome : UpdOutcome) : UpdateResult :=
  let st0 : UpdateResult :=
    { limit_index := limit_index, engineFilled := engineFilled, errorLogged := false,
      tblCreated := false, tblAlive := false, schemaAlive := true, typesAlive := true }
  let afterTry : UpdateResult × Bool :=
    match outcome with
    | .makeTableFails => (st0, true)
    | .fillFails =>
        ({ st0 with
            tblCreated := true
            tblAlive := true
            limit_index := update_limit_index limit limit_index row_count }, true)
    | .ok =>
        ({ st0 with
            tblCreated := true
            tblAlive := true
            limit_index := update_limit_index limit limit_index row_count
            engineFilled := true }, false)
  let caught :=
    if afterTry.2 then { afterTry.1 with errorLogged := true } else afterTry.1
  let finallyTbl :=
    if caught.tblAlive then { caught with tblAlive := false } else caught
  { finallyTbl with
      schemaAlive := false
      typesAlive := false }

/-- C5: an update that the engine accepts advances limit_index by the
inserted row count, wrapped modulo limit when a nonzero limit is set; in
particular with limit 2 and limit_index 0, three sequential single-row
updates yield the limit_index sequence 1, 0, 1. -/
theorem C5_limit_index_sequence (li rc : Nat) (b : Bool) :
    (∀ l : Nat, l ≠ 0 → (table_update (some l) li b rc .ok).limit_index = (li + rc) % l)
  ∧ (table_update none li b rc .ok).limit_index = li + rc
  ∧ (table_update (some 2) 0 b 1 .ok).limit_index = 1
  ∧ (table_update (some 2) ((table_update (some 2) 0 b 1 .ok).limit_index)
      ((table_update (some 2) 0 b 1 .ok).engineFilled) 1 .ok).limit_index = 0
  ∧ (table_update (some 2)
      ((table_update (some 2) ((table_update (some 2) 0 b 1 .ok).limit_index)
        ((table_update (some 2) 0 b 1 .ok).engineFilled) 1 .ok).limit_index)
      ((table_update (some 2) ((table_update (some 2) 0 b 1 .ok).limit_index)
        ((table_update (some 2) 0 b 1 .ok).engineFilled) 1 .ok).engineFilled)
      1 .ok).limit_index = 1 := by
  refine ⟨?_, ?_, ?_, ?_, ?_⟩
  · intro l hl
    simp [table_update, update_limit_index, hl]
  · simp [table_update, update_limit_index]
  all_goals cases b <;> rfl

/-- C5 witness: the general advance rule applied at limit 3, limit_index 4,
row count 2. -/
theorem C5_limit_index_sequence_witness :
    (table_update (some 3) 4 false 2 .ok).limit_index = (4 + 2) % 3 := by
  exact (C5_limit_index_sequence 4 2 false).1 3 (by decide)

/-- C9 counterexample: when make_table succeeds and fill fails, the claim
says the Table state (including limit_index) is as if the update had not
been attempted, but limit_index has already been advanced: from 0 with one
inserted row and limit 2 it ends at 1, not 0. -/
theorem C9_counterexample :
    (table_update (some 2) 0 false 1 .fillFails).limit_index = 1
  ∧ (table_update (some 2) 0 false 1 .fillFails).errorLogged = true
  ∧ (1 : Nat) ≠ 0 := by
  refine ⟨rfl, rfl, by decide⟩

/-- C9 (amended): every failing engine call inside update is caught and
logged rather than propagated (the embedding is total and the errorLogged
flag is set exactly on the failing outcomes), the scratch table handle is
released whenever it was created and the schema and types handles are
released on every exit path; limit_index is unchanged when make_table
itself fails, but when the failure happens after the scratch table was
created (computed columns or fill) limit_index has already been advanced
by the inserted row count, and the engine fill flag is only set on full
success. -/
theorem C9_update_failure_handling (limit : Option Nat) (li rc : Nat) (b : Bool)
    (o : UpdOutcome) :
    (table_update limit li b rc o).tblAlive = false
  ∧ (table_update limit li b rc o).schemaAlive = false
  ∧ (table_update limit li b rc o).typesAlive = false
  ∧ ((table_update limit li b rc o).errorLogged = true ↔ o ≠ .ok)
  ∧ (o = .makeTableFails → (table_update limit li b rc o).limit_index = li
      ∧ (table_update limit li b rc o).engineFilled = b)
  ∧ (o ≠ .makeTableFails →
      (table_update limit li b rc o).limit_index = update_limit_index limit li rc)
  ∧ ((table_update limit li b rc o).engineFilled = true ↔ (o = .ok ∨ b = true)) := by
  cases o <;> cases b <;> simp [table_update]

/-- C9 witness: the amended theorem applied at a fill failure with limit 2,
limit_index 0 and one inserted row. -/
theorem C9_update_failure_handling_witness :
    (table_update (some 2) 0 false 1 .fillFails).tblAlive = false
  ∧ (table_update (some 2) 0 false 1 .fillFails).schemaAlive = false
  ∧ (table_update (some 2) 0 false 1 .fillFails).limit_index
      = update_limit_index (some 2) 0 1 := by
  have h := C9_update_failure_handling (some 2) 0 1 false .fillFails
  exact ⟨h.1, h.2.1, h.2.2.2.2.2.1 (by decide)⟩

/-- A computed column definition as recorded by the table (perspective.js
lines 961-993): column name, serialized transform, input columns and the
declared logical type name. -/
structure ComputedDef where
  column : String
  func : String
  inputs : List String
  type : String
deriving DecidableEq, Repr

/-- The local bookkeeping fields of a table object as set by the table
constructor (lines 941-953): index column name (empty string when none),
recorded computed column definitions (defaulting to []), and the limit and
limit_index fields, none when the constructor argument was omitted. -/
structure TableRec where
  index : String
  computed : List ComputedDef
  limit : Option Nat
  limit_index : Option Nat
deriving DecidableEq, Repr

/-- Embedding of the table constructor (lines 941-953) restricted to these
fields: new table(gnode, pool, index, computed, limit, limit_index) with
computed defaulting to the empty list. -/
def table_ctor (index : String) (computed : Option (List ComputedDef))
    (limit : Option Nat) (limit_index : Option Nat) : TableRec :=
  { index := index
    computed := computed.getD []
    limit := limit
    limit_index := limit_index }

/-- The options dictionary of perspective.table; none models an absent
key. -/
structure TableOptions where
  index : Option String
  limit : Option Nat
deriving DecidableEq, Repr

/-- The construction-time error classes of perspective.table. -/
inductive TableCtorError
  | conflictingOptions
  | unknownIndexColumn
deriving DecidableEq, Repr

/-- The outcome of perspective.table: the constructed table when
construction succeeded, the thrown error otherwise, and whether the engine
pool, graph node and scratch table handles are still held when the call
returns. -/
structure CtorResult where
  tableMade : Option TableRec
  error : Option TableCtorError
  poolAlive : Bool
  gnodeAlive : Bool
  tblAlive : Bool
deriving DecidableEq, Repr

/-- Embedding of perspective.table (lines 1825-1910) after input parsing,
for the non-chunked non-arrow path with the engine calls succeeding.
options.index defaults to the empty string; a truthy index together with a
truthy (nonzero) limit throws the conflicting-options error, and a truthy
index absent from the parsed column names throws the unknown-index error,
both before the try block, so before any engine allocation.  On success
the pool and graph node are created and kept, the scratch table is
released by the finally block, and limit_index is the created table size
modulo the limit when a limit is set (the engine table size is modelled as
the parsed row count). -/
def perspective_table (names : List String) (row_count : Nat)
    (options : TableOptions) : CtorResult :=
  let index := options.index.getD ""
  if index ≠ "" ∧ options.limit.getD 0 ≠ 0 then
    { tableMade := none
      error := some .conflictingOptions
      poolAlive := false
      gnodeAlive := false
      tblAlive := false }
  else if index ≠ "" ∧ names.contains index = false then
    { tableMade := none
      error := some .unknownIndexColumn
      poolAlive := false
      gnodeAlive := false
      tblAlive := false }
  else
    let limit_index :=
      match options.limit with
      | some l => if l ≠ 0 then row_count % l else row_count
      | none => row_count
    { tableMade := some (table_ctor index none options.limit (some limit_index))
      error := none
      poolAlive := true
      gnodeAlive := true
      tblAlive := false }

/-- C6: with both index and limit set (truthy), perspective.table throws
the conflicting-options error, produces no table, and holds no engine pool
or table handle when it returns. -/
theorem C6_conflicting_options (names : List String) (row_count : Nat)
    (options : TableOptions) (i : String) (l : Nat)
    (hi : options.index = some i) (hi2 : i ≠ "")
    (hl : options.limit = some l) (hl2 : l ≠ 0) :
    (perspective_table names row_count options).error = some .conflictingOptions
  ∧ (perspective_table names row_count options).tableMade = none
  ∧ (perspective_table names row_count options).poolAlive = false
  ∧ (perspective_table names row_count options).gnodeAlive = false
  ∧ (perspective_table names row_count options).tblAlive = false := by
  simp [perspective_table, hi, hi2, hl, hl2]

/-- C6 witness: the theorem applied at options with index x and limit 5. -/
theorem C6_conflicting_options_witness :
    (perspective_table ["x"] 3 ⟨some "x", some 5⟩).error = some .conflictingOptions
  ∧ (perspective_table ["x"] 3 ⟨some "x", some 5⟩).tableMade = none := by
  have h := C6_conflicting_options ["x"] 3 ⟨some "x", some 5⟩ "x" 5 rfl (by decide) rfl
    (by decide)
  exact ⟨h.1, h.2.1⟩

/-- The view-ownership and resource state of one table, as used by
table.prototype.delete: the owned views (by name), whether the graph node
is registered in the pool, whether the graph node and pool handles are
alive, and whether an on_delete callback is registered. -/
structure TblViewState where
  views : List String
  gnodeRegistered : Bool
  gnodeAlive : Bool
  poolAlive : Bool
  hasDeleteCb : Bool
deriving DecidableEq, Repr

/-- The outcome of table.prototype.delete: the table state afterwards, the
thrown error message when deletion was refused, and whether the delete
callback ran. -/
structure TableDeleteResult where
  st : TblViewState
  error : Option String
  cbInvoked : Bool
deriving DecidableEq, Repr

/-- Embedding of table.prototype.delete (lines 1000-1010): when views
remain it throws before mutating anything; otherwise it unregisters the
graph node, releases the graph node and pool handles and invokes the
registered delete callback, if any. -/
def table_delete (st : TblViewState) : TableDeleteResult :=
  if 0 < st.views.length then
    { st := st
      error := some "Table still has contexts - refusing to delete."
      cbInvoked := false }
  else
    { st := { st with
        gnodeRegistered := false
        gnodeAlive := false
        poolAlive := false }
      error := none
      cbInvoked := st.hasDeleteCb }

/-- Embedding of the owner-side effect of view.prototype.delete (line 457):
this.table.views.splice(this.table.views.indexOf(this), 1) removes the
first occurrence of the view from the owning table view list (the view is
always a member of its owner list, which is the case splice models). -/
def view_delete_from_table (v : String) (st : TblViewState) : TblViewState :=
  { st with views := st.views.erase v }

theorem foldl_erase_self {α : Type} [DecidableEq α] :
    ∀ l : List α, List.foldl (fun acc x => acc.erase x) l l = [] := by
  intro l
  induction l with
  | nil => rfl
  | cons x xs ih => simpa [List.foldl_cons, List.erase_cons_head] using ih

theorem views_after_delete_all :
    ∀ (l : List String) (s : TblViewState),
      (List.foldl (fun s2 v => view_delete_from_table v s2) s l).views =
        List.foldl (fun acc v => acc.erase v) s.views l := by
  intro l
  induction l with
  | nil => intro s; rfl
  | cons x xs ih => intro s; simpa [view_delete_from_table] using ih _

/-- C7: deleting a table that still owns a view throws the
table-has-views error and leaves the state and engine resources unchanged
without running the delete callback; with no views left, delete succeeds,
unregisters and releases the engine resources and runs the delete callback
exactly when one is registered; and after deleting every owned view in
turn the deletion succeeds. -/
theorem C7_table_delete (st : TblViewState) :
    (st.views ≠ [] →
      table_delete st = { st := st
                          error := some "Table still has contexts - refusing to delete."
                          cbInvoked := false })
  ∧ (st.views = [] →
      (table_delete st).error = none
    ∧ (table_delete st).st.gnodeRegistered = false
    ∧ (table_delete st).st.gnodeAlive = false
    ∧ (table_delete st).st.poolAlive = false
    ∧ (table_delete st).cbInvoked = st.hasDeleteCb)
  ∧ (table_delete (List.foldl (fun s v => view_delete_from_table v s) st st.views)).error
      = none := by
  refine ⟨?_, ?_, ?_⟩
  · intro hne
    have hlen : 0 < st.views.length := List.length_pos.mpr hne
    simp [table_delete, hlen]
  · intro he
    simp [table_delete, he]
  · have hv := views_after_delete_all st.views st
    rw [foldl_erase_self] at hv
    simp [table_delete, hv]

/-- C7 witness: the theorem applied at a table owning one view v1 with a
registered delete callback: deletion is first refused, and succeeds after
the view is deleted. -/
theorem C7_table_delete_witness :
    (table_delete ⟨["v1"], true, true, true, true⟩).error
        = some "Table still has contexts - refusing to delete."
  ∧ (table_delete
      (List.foldl (fun s v => view_delete_from_table v s)
        (⟨["v1"], true, true, true, true⟩ : TblViewState)
        (⟨["v1"], true, true, true, true⟩ : TblViewState).views)).error = none := by
  have h := C7_table_delete ⟨["v1"], true, true, true, true⟩
  refine ⟨?_, h.2.2⟩
  rw [h.1 (by decide)]

/-- A serialized error object as produced by error_to_json (lines
1563-1569), reduced to its message property. -/
structure ErrObj where
  message : String
deriving DecidableEq, Repr

/-- A reply posted by the Host: either a data reply or an error reply,
both keyed by the request id. -/
inductive Reply
  | dataReply (id : Nat) (payload : String)
  | errReply (id : Nat) (e : ErrObj)
deriving DecidableEq, Repr

/-- A view_method request: {cmd: view_method, id, name, method,
subscribe}. -/
structure ViewMethodMsg where
  id : Nat
  name : String
  method : String
  subscribe : Bool
deriving DecidableEq, Repr

/-- A registered view as the Host dispatch sees it: each method name maps
to the behavior of invoking it, a resolved payload or a rejected error. -/
structure HostView where
  methods : List (String × Except ErrObj String)
deriving Repr

/-- Embedding of the view_method case of Host.process (lines 1684-1727).
A name missing from the view registry posts one error reply with message
"View is not initialized" and returns normally.  On a registered view the
method is invoked: the subscribe path is wrapped in try/catch and posts a
caught failure as an error reply; the non-subscribe path posts the
resolved value as a data reply or the rejection as an error reply, but a
method name missing on the view object makes the property access throw out
of the dispatch (the Except.error result of the embedding). -/
def host_view_method (views : List (String × HostView)) (msg : ViewMethodMsg) :
    Except ErrObj (List Reply) :=
  match List.lookup msg.name views with
  | none => .ok [Reply.errReply msg.id ⟨"View is not initialized"⟩]
  | some v =>
      if msg.subscribe then
        match List.lookup msg.method v.methods with
        | none => .ok [Reply.errReply msg.id ⟨"TypeError"⟩]
        | some _ => .ok []
      else
        match List.lookup msg.method v.methods with
        | none => .error ⟨"TypeError"⟩
        | some (.ok d) => .ok [Reply.dataReply msg.id d]
        | some (.error e) => .ok [Reply.errReply msg.id e]

/-- C8: a view_method message naming a view absent from the registry makes
the dispatch post exactly one reply, the error reply with the message
"View is not initialized" under the request id, and return normally
instead of throwing. -/
theorem C8_unknown_view (views : List (String × HostView)) (msg : ViewMethodMsg)
    (h : List.lookup msg.name views = none) :
    host_view_method views msg = .ok [Reply.errReply msg.id ⟨"View is not initialized"⟩] := by
  simp [host_view_method, h]

/-- C8 witness: the theorem applied at an empty registry and a concrete
request. -/
theorem C8_unknown_view_witness :
    host_view_method [] ⟨7, "missing", "to_json", false⟩
      = .ok [Reply.errReply 7 ⟨"View is not initialized"⟩] := by
  exact C8_unknown_view [] ⟨7, "missing", "to_json", false⟩ rfl

/-- Embedding of the bookkeeping of table.prototype.add_computed (lines
1431-1467) on the engine-success path: previously recorded computed
definitions are prepended when there are any (line 1449-1451), and the
result is new table(gnode, pool, this.index, computed) at line 1453, with
the limit and limit_index constructor arguments omitted. -/
def add_computed (t : TableRec) (computed : List ComputedDef) : TableRec :=
  let merged := if 0 < t.computed.length then t.computed ++ computed else computed
  table_ctor t.index (some merged) none none

/-- C10: for a table constructed with a limit, the table returned by
add_computed keeps the index column and carries the previous computed
definitions followed by the new ones, but its limit and limit_index are
undefined: the circular-buffer policy is not inherited. -/
theorem C10_add_computed (t : TableRec) (defs : List ComputedDef) (l : Nat)
    (_h : t.limit = some l) :
    (add_computed t defs).index = t.index
  ∧ (add_computed t defs).computed = t.computed ++ defs
  ∧ (add_computed t defs).limit = none
  ∧ (add_computed t defs).limit_index = none := by
  refine ⟨rfl, ?_, rfl, rfl⟩
  by_cases hc : 0 < t.computed.length
  · simp [add_computed, table_ctor, hc]
  · have : t.computed = [] := by
      simpa [List.length_eq_zero] using Nat.eq_zero_of_not_pos hc
    simp [add_computed, table_ctor, hc, this]

/-- C10 witness: the theorem applied at a limited table with one previous
computed definition and one new definition. -/
theorem C10_add_computed_witness :
    (add_computed
        ⟨"k", [⟨"c1", "f1", ["a"], "float"⟩], some 2, some 1⟩
        [⟨"c2", "f2", ["b"], "integer"⟩]).computed
      = [⟨"c1", "f1", ["a"], "float"⟩, ⟨"c2", "f2", ["b"], "integer"⟩]
  ∧ (add_computed
        ⟨"k", [⟨"c1", "f1", ["a"], "float"⟩], some 2, some 1⟩
        [⟨"c2", "f2", ["b"], "integer"⟩]).limit = none
  ∧ (add_computed
        ⟨"k", [⟨"c1", "f1", ["a"], "float"⟩], some 2, some 1⟩
        [⟨"c2", "f2", ["b"], "integer"⟩]).limit_index = none := by
  have h := C10_add_computed
    ⟨"k", [⟨"c1", "f1", ["a"], "float"⟩], some 2, some 1⟩
    [⟨"c2", "f2", ["b"], "integer"⟩] 2 rfl
  exact ⟨h.2.1, h.2.2.1, h.2.2.2⟩

end Perspective
